import Mathlib

/-!
Verification of the VJSoccerResults statistics engine (src/fast_agent.py).

The definitions below are a shallow embedding of the Python source:
pure helper functions become Lean functions, the ambient current time
(`datetime.now` in the Melbourne zone) becomes an explicit `today` /
instant parameter, JSON record dictionaries become structures whose
fields are `Option`-valued where the source field can be `null`, and
timestamps become an inductive `Stamp` whose constructors correspond
one-to-one to the branch conditions of `parse_date_utc_to_aest`.
Calendar arithmetic (`datetime.date`, `timedelta`, `.weekday()`) is
embedded as arithmetic on day numbers (days since 1970-01-01) using the
standard civil-calendar conversion algorithms, and the pytz
`Australia/Melbourne` zone is embedded by its fixed offset rule
(UTC+10, UTC+11 during daylight saving between the first Sundays of
October and April).
-/

namespace VJSoccer

/-- `leadsWith needle hay` is true when `needle` is an initial segment of
`hay` (character lists). -/
def leadsWith : List Char → List Char → Bool
  | [], _ => true
  | _ :: _, [] => false
  | a :: as, b :: bs => a == b && leadsWith as bs

/-- `hasSubList needle hay`: `needle` occurs contiguously inside `hay`. -/
def hasSubList (needle : List Char) : List Char → Bool
  | [] => leadsWith needle []
  | c :: rest => leadsWith needle (c :: rest) || hasSubList needle rest

/-- Python `needle in hay` for strings (substring containment). -/
def strHasSub (hay needle : String) : Bool :=
  hasSubList needle.data hay.data

/-- Python `str.lower()` (ASCII case folding, structurally recursive so
that concrete instances evaluate in the kernel). -/
def pyLower (s : String) : String :=
  String.mk (s.data.map Char.toLower)

/-- Whitespace for Python `str.strip()`. -/
def isSpaceChar (c : Char) : Bool :=
  c == ' ' || c == '\t' || c == '\n' || c == '\r'

/-- Python `str.strip()`. -/
def pyStrip (s : String) : String :=
  String.mk (((s.data.dropWhile isSpaceChar).reverse.dropWhile isSpaceChar).reverse)

/-- Python emptiness test on a string (structurally recursive). -/
def pyIsEmpty (s : String) : Bool :=
  s.data.isEmpty

/-- Python truthiness of an optional string field: `None` and `""` are falsy. -/
def optStrTruthy : Option String → Bool
  | some s => !(pyIsEmpty s)
  | none => false

/-- Python `a or b` on optional string fields: first truthy value, else `""`. -/
def pyOrStr (a b : Option String) : String :=
  match a with
  | some s => if pyIsEmpty s then (match b with | some t => t | none => "") else s
  | none => match b with | some t => t | none => ""

/-- Python `dict.get(k, default)` for an optional string field with a
string default. -/
def getStrD (a : Option String) (d : String) : String :=
  match a with
  | some s => s
  | none => d

/-!
## Stable sorting

Python's `sorted`/`list.sort` is a stable sort. It is embedded as a
stable insertion sort, structurally recursive so that concrete instances
evaluate in the kernel: an element is inserted after every element that
compares `le` to it, so elements that tie keep their original relative
order — for a total, transitive `le` this has the same output as any
stable sort.
-/

/-- Insert `x` after every prefix element `y` with `le y x`. -/
def pyInsert (le : α → α → Bool) (x : α) : List α → List α
  | [] => [x]
  | y :: ys => if le y x then y :: pyInsert le x ys else x :: y :: ys

/-- Stable sort by `le` (Python `sorted(…)` semantics). -/
def pySort (le : α → α → Bool) (l : List α) : List α :=
  l.foldl (fun acc x => pyInsert le x acc) []

/-!
## Calendar arithmetic

Day numbers are days since 1970-01-01 (the epoch of `datetime.date`
arithmetic up to a constant shift; only differences and weekdays matter).
The conversions are the standard civil-calendar algorithms.
-/

/-- Days since 1970-01-01 of the civil date `(y, m, d)`. -/
def daysFromCivil (y m d : Int) : Int :=
  let y' := if m ≤ 2 then y - 1 else y
  let era := Int.fdiv y' 400
  let yoe := y' - era * 400
  let mp := if m > 2 then m - 3 else m + 9
  let doy := (153 * mp + 2) / 5 + d - 1
  let doe := yoe * 365 + yoe / 4 - yoe / 100 + doy
  era * 146097 + doe - 719468

/-- Civil date `(y, m, d)` of a day number. -/
def civilFromDays (z : Int) : Int × Int × Int :=
  let z' := z + 719468
  let era := Int.fdiv z' 146097
  let doe := z' - era * 146097
  let yoe := (doe - doe / 1460 + doe / 36524 - doe / 146096) / 365
  let y := yoe + era * 400
  let doy := doe - (365 * yoe + yoe / 4 - yoe / 100)
  let mp := (5 * doy + 2) / 153
  let d := doy - (153 * mp + 2) / 5 + 1
  let m := if mp < 10 then mp + 3 else mp - 9
  (if m ≤ 2 then y + 1 else y, m, d)

/-- `datetime.date.weekday()`: Monday = 0, …, Sunday = 6. -/
def pyWeekday (days : Int) : Int :=
  (days + 3) % 7

/-- Day of month (1–7) of the first Sunday of month `m` in year `y`. -/
def firstSundayDom (y m : Int) : Int :=
  match (List.range 7).find? (fun i => pyWeekday (daysFromCivil y m (i + 1)) == 6) with
  | some i => (i : Int) + 1
  | none => 1

/-!
## Melbourne local time (pytz `Australia/Melbourne`)

Instants are minutes since 1970-01-01T00:00Z. Daylight saving (AEDT,
UTC+11) runs from 02:00 AEST on the first Sunday of October to 03:00
AEDT on the first Sunday of April; both transitions are 16:00 UTC on
the preceding Saturday, i.e. 8 hours before local Sunday midnight.
Outside that span the offset is AEST, UTC+10.
-/

/-- Whether daylight saving is active in Melbourne at the given UTC instant
(minutes since epoch). -/
def melDstActive (u : Int) : Bool :=
  let y := (civilFromDays (Int.fdiv u 1440)).1
  let aprT := 1440 * daysFromCivil y 4 (firstSundayDom y 4) - 480
  let octT := 1440 * daysFromCivil y 10 (firstSundayDom y 10) - 480
  decide (u < aprT) || decide (octT ≤ u)

/-- UTC offset, in minutes, of Melbourne local time at a UTC instant. -/
def melOffsetMin (u : Int) : Int :=
  if melDstActive u then 660 else 600

/-- A timezone-aware instant rendered in Melbourne local time: the UTC
instant in minutes since epoch together with the local offset. -/
structure MelTime where
  utc : Int
  off : Int
  deriving DecidableEq, Repr

/-- Local wall-clock minutes since epoch. -/
def MelTime.localMin (t : MelTime) : Int := t.utc + t.off

/-- Local calendar day number (`.date()` on the localized datetime). -/
def MelTime.localDate (t : MelTime) : Int := Int.fdiv t.localMin 1440

/-- Local time of day in minutes (0 = local midnight). -/
def MelTime.localTimeOfDay (t : MelTime) : Int := t.localMin % 1440

/-- A stored timestamp, as classified by the branch conditions of
`parse_date_utc_to_aest`:
`utcStamp` — the string carries a `Z` marker (explicit UTC);
`offsetStamp` — a time with an explicit offset (wall-clock minutes and
offset minutes);
`naiveStamp` — a time with no timezone marker (the source assumes UTC);
`dateOnly` — a bare date, no time component;
`invalid` — empty or unparsable. -/
inductive Stamp where
  | utcStamp (utcMin : Int)
  | offsetStamp (wallMin offMin : Int)
  | naiveStamp (wallMin : Int)
  | dateOnly (y m d : Int)
  | invalid
  deriving DecidableEq, Repr

/-- `parse_date_utc_to_aest`: parse a stored timestamp and convert it to
Melbourne local time. A date-only stamp is read as midnight **UTC** of
that date (source comment: "Date only … assume midnight UTC"). -/
def parse_date_utc_to_aest : Stamp → Option MelTime
  | .utcStamp u => some ⟨u, melOffsetMin u⟩
  | .offsetStamp wall off =>
      let u := wall - off
      some ⟨u, melOffsetMin u⟩
  | .naiveStamp wall => some ⟨wall, melOffsetMin wall⟩
  | .dateOnly y m d =>
      let u := 1440 * daysFromCivil y m d
      some ⟨u, melOffsetMin u⟩
  | .invalid => none

/-- `get_match_day_date`, with the ambient Melbourne "today" made an
explicit day-number parameter: today itself when it is a Sunday,
otherwise the most recent Sunday before today. -/
def get_match_day_date (todayAest : Int) : Int :=
  if pyWeekday todayAest == 6 then
    todayAest
  else
    todayAest - (pyWeekday todayAest + 1) % 7

/-- `get_last_sunday`: the Sunday strictly before today (a week back when
today is itself a Sunday). -/
def get_last_sunday (todayAest : Int) : Int :=
  let daysSince := (pyWeekday todayAest + 1) % 7
  if daysSince == 0 then todayAest - 7 else todayAest - daysSince

/-!
## Alias & name resolver

`rapidfuzz`-based fuzzy scoring (`fuzzy_find`) is an external library
call; the functions below take the fuzzy scorer as an explicit function
parameter `fz`, so every theorem about them holds for an arbitrary
scorer. The known team-name set (built from the loaded data files) is
likewise a parameter.
-/

/-- `CLUB_ALIASES`, in source (insertion) order. -/
def CLUB_ALIASES : List (String × String) :=
  [("heidelberg", "Heidelberg United FC"),
   ("heidelberg united", "Heidelberg United FC"),
   ("heidelberg utd", "Heidelberg United FC"),
   ("heidelberg fc", "Heidelberg United FC"),
   ("heidelberg united fc", "Heidelberg United FC"),
   ("bergers", "Heidelberg United FC"),
   ("heid", "Heidelberg United FC"),
   ("brunswick", "Brunswick Juventus FC"),
   ("brunswick juventus", "Brunswick Juventus FC"),
   ("brunswick juve", "Brunswick Juventus FC"),
   ("juve", "Brunswick Juventus FC"),
   ("brunswick fc", "Brunswick Juventus FC"),
   ("essendon", "Essendon Royals SC"),
   ("essendon royals", "Essendon Royals SC"),
   ("royals", "Essendon Royals SC"),
   ("essendon sc", "Essendon Royals SC"),
   ("avondale", "Avondale FC"),
   ("avondale fc", "Avondale FC"),
   ("altona", "Altona Magic SC"),
   ("altona magic", "Altona Magic SC"),
   ("magic", "Altona Magic SC"),
   ("altona sc", "Altona Magic SC"),
   ("redbacks", "Eltham Redbacks FC"),
   ("eltham", "Eltham Redbacks FC"),
   ("box hill", "Box Hill United Pythagoras FC"),
   ("box hill united", "Box Hill United Pythagoras FC"),
   ("boxhill", "Box Hill United Pythagoras FC"),
   ("manningham", "Manningham United Blues FC"),
   ("manningham united", "Manningham United Blues FC"),
   ("manningham blues", "Manningham United Blues FC"),
   ("blues", "Manningham United Blues FC"),
   ("bulleen", "FC Bulleen Lions"),
   ("bulleen lions", "FC Bulleen Lions"),
   ("fc bulleen", "FC Bulleen Lions"),
   ("lions", "FC Bulleen Lions"),
   ("bentleigh", "Bentleigh Greens SC"),
   ("bentleigh greens", "Bentleigh Greens SC"),
   ("greens", "Bentleigh Greens SC"),
   ("hume", "Hume City FC"),
   ("hume city", "Hume City FC"),
   ("hume city fc", "Hume City FC")]

/-- `get_canonical_club_name`: exact alias-key match first, then the first
alias key (in table order) contained in the query. -/
def get_canonical_club_name (query : String) : Option String :=
  let query_lower := pyStrip (pyLower query)
  match CLUB_ALIASES.find? (fun kv => kv.1 == query_lower) with
  | some kv => some kv.2
  | none => (CLUB_ALIASES.find? (fun kv => strHasSub query_lower kv.1)).map (fun kv => kv.2)

/-- A regex word character (`\w`): letter, digit or underscore. -/
def isWordChar (c : Char) : Bool :=
  c.isAlphanum || c == '_'

/-- Left-to-right scan for the regex `\bu(\d\d)\b` (first match wins);
`prev` is the character before the current scan position. -/
def ageScan : Option Char → List Char → Option String
  | _, [] => none
  | prev, c :: rest =>
    if c == 'u' && (match prev with | some p => !isWordChar p | none => true) then
      match rest with
      | d1 :: d2 :: rest2 =>
        if d1.isDigit && d2.isDigit &&
            (match rest2 with | [] => true | e :: _ => !isWordChar e) then
          some (String.mk ['U', d1, d2])
        else ageScan (some c) rest
      | _ => ageScan (some c) rest
    else ageScan (some c) rest

/-- `extract_age_group`: first `u` followed by exactly two digits,
word-bounded, in the lower-cased text; returned as `U`-prefixed. -/
def extract_age_group (text : String) : Option String :=
  ageScan none (pyLower text).data

/-- Python `min(xs, key=len)`: the first element of minimal length. -/
def minByLen (xs : List String) : Option String :=
  xs.foldl (fun acc s =>
    match acc with
    | none => some s
    | some cur => if s.length < cur.length then some s else some cur) none

/-- Python `max(xs, key=len)`: the first element of maximal length. -/
def maxByLen (xs : List String) : Option String :=
  xs.foldl (fun acc s =>
    match acc with
    | none => some s
    | some cur => if cur.length < s.length then some s else some cur) none

/-- `fuzzy_team`, with the known team names and the rapidfuzz scorer as
parameters: exact lower-cased match, then substring precedence, then the
fuzzy fallback (`fuzzy_find` at threshold 75). -/
def fuzzy_team (fz : String → List String → Option String)
    (team_names : List String) (q : String) : Option String :=
  let q_lower := pyStrip (pyLower q)
  let team_names_lower := team_names.map pyLower
  if team_names_lower.contains q_lower then
    some q_lower
  else
    let exact_matches := team_names_lower.filter (fun t => strHasSub t q_lower)
    if exact_matches.length == 1 then exact_matches.head?
    else if 1 < exact_matches.length then minByLen exact_matches
    else
      let reverse_matches := team_names_lower.filter (fun t => strHasSub q_lower t)
      if reverse_matches.length == 1 then reverse_matches.head?
      else if 1 < reverse_matches.length then maxByLen reverse_matches
      else fz q_lower team_names_lower

/-- `normalize_team`: alias lookup and age-group extraction first; if an
alias resolved, the query is rebuilt as club (plus age group when one was
found) before the `fuzzy_team` chain runs. -/
def normalize_team (fz : String → List String → Option String)
    (team_names : List String) (query : String) : Option String :=
  if pyIsEmpty query then none
  else
    let q_lower := pyStrip (pyLower query)
    let canonical_club := get_canonical_club_name q_lower
    let age_group := extract_age_group q_lower
    let query2 :=
      match canonical_club with
      | some c =>
        match age_group with
        | some a => c ++ " " ++ a
        | none => c
      | none => query
    fuzzy_team fz team_names query2

/-- `extract_league_from_league_name`: the competition code carried by a
league label. -/
def extract_league_from_league_name (league_name : String) : String :=
  if pyIsEmpty league_name then "Other"
  else
    let l := pyLower league_name
    if strHasSub l "ypl1" || strHasSub l "ypl 1" then "YPL1"
    else if strHasSub l "ypl2" || strHasSub l "ypl 2" then "YPL2"
    else if strHasSub l "ysl" && (strHasSub l "north-west" || strHasSub l "nw" || strHasSub l "north west") then "YSL NW"
    else if strHasSub l "ysl" && (strHasSub l "south-east" || strHasSub l "se" || strHasSub l "south east") then "YSL SE"
    else if strHasSub l "vpl men" then "VPL Men"
    else if strHasSub l "vpl women" then "VPL Women"
    else if strHasSub l "ysl" then "YSL"
    else "Other"

/-!
## Person records and filter criteria
-/

/-- A normalized person record, restricted to the fields
`filter_players_by_criteria` reads. -/
structure Person where
  role : Option String
  teams : List String
  team_name : Option String
  deriving DecidableEq, Repr

/-- `_person_teams`: the `teams` array when non-empty, else the scalar
`team_name` as a singleton, else nothing. -/
def person_teams (p : Person) : List String :=
  if !p.teams.isEmpty then p.teams
  else
    match p.team_name with
    | some tn => if pyIsEmpty tn then [] else [tn]
    | none => []

/-- `_team_match` inside `filter_players_by_criteria`: some registered
team of the person satisfies the check. -/
def team_match (p : Person) (check : String → Bool) : Bool :=
  (person_teams p).any check

/-- The role filter of `filter_players_by_criteria`: keep only staff
(truthy non-`player` role) when non-players are requested, else only
players (no role, or role `player`). -/
def role_filter (players : List Person) (include_non_players : Bool) : List Person :=
  if include_non_players then
    players.filter (fun p =>
      optStrTruthy p.role && (pyLower (getStrD p.role "") != "player"))
  else
    players.filter (fun p =>
      !optStrTruthy p.role || (pyLower (getStrD p.role "") == "player"))

/-- `filter_players_by_criteria`, with the three query extractors
(`extract_age_group`, `extract_team_name`, `extract_base_club_name`) as
function parameters: role filter first, then exactly one of the four
team criteria, chosen by the if/elif precedence of the source. -/
def filter_players_by_criteria
    (ageOf teamOf clubOf : String → Option String)
    (players : List Person) (query : String)
    (include_non_players : Bool) : List Person :=
  let age_group := ageOf query
  let team_name := teamOf query
  let base_club := clubOf query
  let filtered := role_filter players include_non_players
  match team_name with
  | some tn =>
      filtered.filter (fun p => team_match p (fun t => strHasSub (pyLower t) (pyLower tn)))
  | none =>
      match base_club, age_group with
      | some bc, some ag =>
          let exact_team := bc ++ " " ++ ag
          filtered.filter (fun p => team_match p (fun t => strHasSub (pyLower t) (pyLower exact_team)))
      | some bc, none =>
          filtered.filter (fun p => team_match p (fun t => strHasSub (pyLower t) (pyLower bc)))
      | none, some ag =>
          filtered.filter (fun p => team_match p (fun t => strHasSub (pyLower t) (pyLower ag)))
      | none, none => filtered

/-!
## Match / fixture records and the aggregation tools

A record models the `attributes` dictionary of a fixture or result entry.
Fields that can be JSON `null` are `Option`-valued (`none` = `null`);
records are modelled as carrying every key, so Python `dict.get(k)` with
a present-but-null key is `none`, and `dict.update` by a full result
record replaces every field.
-/

structure Attrs where
  match_hash_id : Option String
  date : Stamp
  home_team_name : Option String
  away_team_name : Option String
  league_name : Option String
  competition_name : Option String
  status : Option String
  home_score : Option Int
  away_score : Option Int
  round : Option String
  full_round : Option String
  ground_name : Option String
  home_team_hash_id : Option String
  away_team_hash_id : Option String
  deriving DecidableEq, Repr

/-- A merged entry of the per-tool `all_matches` stream, tagged with the
`source` marker the tools attach. -/
structure MergedMatch where
  attrs : Attrs
  source : String
  deriving DecidableEq, Repr

/-- The `result_lookup` dictionary of `tool_missing_scores`, applied to one
key: results are inserted in list order under a truthy `match_hash_id`,
later entries overwriting earlier ones, so a lookup returns the last
matching result. -/
def result_lookup (results : List Attrs) (mid : String) : Option Attrs :=
  (results.filter (fun r =>
    optStrTruthy r.match_hash_id && (r.match_hash_id == some mid))).getLast?

/-- The merge of one fixture in `tool_missing_scores`: where a result
shares the fixture's truthy `match_hash_id` the result's fields take
over (`dict(f_attrs)` then `.update(result)`; since a result record
carries every field, the merged dictionary equals the result record). -/
def mergeOne (results : List Attrs) (f : Attrs) : MergedMatch :=
  match f.match_hash_id with
  | some mid =>
    if pyIsEmpty mid then ⟨f, "fixture_only"⟩
    else
      match result_lookup results mid with
      | some r => ⟨r, "result"⟩
      | none => ⟨f, "fixture_only"⟩
  | none => ⟨f, "fixture_only"⟩

/-- The merged `all_matches` stream of `tool_missing_scores`: fixtures are
the single source, one merged entity per fixture. -/
def mergedMatches (fixtures results : List Attrs) : List MergedMatch :=
  fixtures.map (mergeOne results)

/-- Value of the first digit run in a string (`re.search` for `(\d+)`),
as used for round-number matching. -/
def firstNatIn : List Char → Option Nat
  | [] => none
  | c :: rest =>
    if c.isDigit then
      some (((c :: rest).takeWhile Char.isDigit).foldl
        (fun a d => a * 10 + (d.toNat - 48)) 0)
    else firstNatIn rest

/-- The fixed default league filter of `tool_missing_scores`. -/
def target_leagues : List String :=
  ["YPL1", "YPL2", "YSL NW", "YSL SE", "VPL"]

/-- The query-filter block of `tool_missing_scores` (league code, then age
group, then club, else raw substring against the search blob, which in
this tool includes the round string). -/
def missing_query_ok (query home_team away_team league match_round : String) : Bool :=
  if pyIsEmpty query then true
  else
    let q_lower := pyStrip (pyLower query)
    let age_group := extract_age_group q_lower
    let canonical_club := get_canonical_club_name q_lower
    let match_league_code := extract_league_from_league_name league
    let search_blob := pyLower
      (home_team ++ " " ++ away_team ++ " " ++ league ++ " " ++ match_league_code ++ " " ++ match_round)
    let query_league_code :=
      (["ypl1", "ypl2", "ysl nw", "ysl se", "vpl men", "vpl women", "ypl 1", "ypl 2"].find?
        (fun pl => strHasSub q_lower pl)).map extract_league_from_league_name
    (match query_league_code with
     | some qlc => pyLower match_league_code == pyLower qlc
     | none => true) &&
    (match age_group with
     | some ag => strHasSub search_blob (pyLower ag)
     | none => true) &&
    (match canonical_club with
     | some cc => strHasSub search_blob (pyLower cc)
     | none => true) &&
    (if age_group.isNone && canonical_club.isNone && query_league_code.isNone then
       strHasSub search_blob q_lower
     else true)

/-- The `needs_score` criterion of `tool_missing_scores`: the match is on
or before today (Melbourne) and is not a completed match with both
scores. -/
def needs_score (today match_date : Int) (a : Attrs) : Bool :=
  let status := pyLower (getStrD a.status "")
  decide (match_date ≤ today) &&
    (status != "complete" || a.home_score.isNone || a.away_score.isNone)

/-- The guard prefilter of the `tool_missing_scores` loop: date parse,
date window (round mode has no window; a specific match day must be hit
exactly; the default is the trailing 14 days ending today), bye
exclusion via the team hash ids, default target-league filter, round
filter and query filter — everything before the `needs_score` check. -/
def missing_prefilter (today : Int) (query : String) (include_all_leagues : Bool)
    (round_filter : Option Nat) (match_day : Option Int) (m : MergedMatch) : Bool :=
  match parse_date_utc_to_aest m.attrs.date with
  | none => false
  | some mt =>
    let match_date := mt.localDate
    let windowOk :=
      if round_filter.isSome then true
      else
        match match_day with
        | some md => match_date == md
        | none =>
          let days_diff := match_date - today
          !(decide (0 < days_diff) || decide (days_diff < -14))
    let home_team := getStrD m.attrs.home_team_name "Unknown"
    let away_team := getStrD m.attrs.away_team_name "Unknown"
    let league := getStrD m.attrs.league_name ""
    let byeOk := optStrTruthy m.attrs.home_team_hash_id && optStrTruthy m.attrs.away_team_hash_id
    let leagueOk :=
      include_all_leagues || target_leagues.contains (extract_league_from_league_name league)
    let match_round := pyOrStr m.attrs.round m.attrs.full_round
    let roundOk :=
      match round_filter with
      | none => true
      | some rf =>
        match firstNatIn match_round.data with
        | some n => n == rf
        | none => false
    windowOk && byeOk && leagueOk && roundOk &&
      missing_query_ok query home_team away_team league match_round

/-- Full per-match test of the loop: the guard prefilter, then the
`needs_score` flag. -/
def missing_keep (today : Int) (query : String) (include_all_leagues : Bool)
    (round_filter : Option Nat) (match_day : Option Int) (m : MergedMatch) : Bool :=
  missing_prefilter today query include_all_leagues round_filter match_day m &&
    (match parse_date_utc_to_aest m.attrs.date with
     | none => false
     | some mt => needs_score today mt.localDate m.attrs)

/-- `tool_missing_scores`, as the list of merged matches it reports (the
display rows are these matches, sorted; see
`tool_missing_scores_sorted`). The ambient Melbourne "today" is the
explicit day-number parameter. -/
def tool_missing_scores_matches (today : Int) (fixtures results : List Attrs)
    (query : String) (include_all_leagues today_only last_week : Bool)
    (round_filter : Option Nat) : List MergedMatch :=
  let match_day : Option Int :=
    if round_filter.isSome then none
    else if today_only then some (get_match_day_date today)
    else if last_week then some (get_match_day_date today - 7)
    else none
  (mergedMatches fixtures results).filter
    (missing_keep today query include_all_leagues round_filter match_day)

/-- Sort key of the output rows: the aware datetime, which compares by
UTC instant. -/
def melUtcOf (m : MergedMatch) : Int :=
  match parse_date_utc_to_aest m.attrs.date with
  | some mt => mt.utc
  | none => 0

/-- The reported missing-score matches in display order (stable ascending
sort by datetime, as `missing_scores.sort(key=datetime_sort)`). -/
def tool_missing_scores_sorted (today : Int) (fixtures results : List Attrs)
    (query : String) (include_all_leagues today_only last_week : Bool)
    (round_filter : Option Nat) : List MergedMatch :=
  pySort (fun a b => decide (melUtcOf a ≤ melUtcOf b))
    (tool_missing_scores_matches today fixtures results query include_all_leagues
      today_only last_week round_filter)

/-- The query-filter block of `tool_todays_results` (same shape as the
missing-scores one, but the search blob carries no round string). -/
def todays_query_ok (query home_team away_team league : String) : Bool :=
  if pyIsEmpty query then true
  else
    let q_lower := pyStrip (pyLower query)
    let age_group := extract_age_group q_lower
    let canonical_club := get_canonical_club_name q_lower
    let match_league_code := extract_league_from_league_name league
    let search_blob := pyLower
      (home_team ++ " " ++ away_team ++ " " ++ league ++ " " ++ match_league_code)
    let query_league_code :=
      (["ypl1", "ypl2", "ysl nw", "ysl se", "vpl men", "vpl women", "ypl 1", "ypl 2"].find?
        (fun pl => strHasSub q_lower pl)).map extract_league_from_league_name
    (match query_league_code with
     | some qlc => pyLower match_league_code == pyLower qlc
     | none => true) &&
    (match age_group with
     | some ag => strHasSub search_blob (pyLower ag)
     | none => true) &&
    (match canonical_club with
     | some cc => strHasSub search_blob (pyLower cc)
     | none => true) &&
    (if age_group.isNone && canonical_club.isNone && query_league_code.isNone then
       strHasSub search_blob q_lower
     else true)

/-- One-match filter of the `tool_todays_results` loop: date parse,
reporting-day check, bye exclusion, query filter, and the
completed-with-both-scores check. -/
def todays_keep (match_day : Int) (query : String) (m : MergedMatch) : Bool :=
  match parse_date_utc_to_aest m.attrs.date with
  | none => false
  | some mt =>
    let home_team := getStrD m.attrs.home_team_name "Unknown"
    let away_team := getStrD m.attrs.away_team_name "Unknown"
    let league := getStrD m.attrs.league_name ""
    let byeOk := optStrTruthy m.attrs.home_team_hash_id && optStrTruthy m.attrs.away_team_hash_id
    let status := pyLower (getStrD m.attrs.status "")
    (mt.localDate == match_day) && byeOk &&
      todays_query_ok query home_team away_team league &&
      (status == "complete" && m.attrs.home_score.isSome && m.attrs.away_score.isSome)

/-- `tool_todays_results`, as the list of matches it lists: fixtures and
results are concatenated (each tagged with its source, **not** merged by
`match_hash_id`), then filtered by `todays_keep`. -/
def tool_todays_results_matches (today : Int) (fixtures results : List Attrs)
    (query : String) : List MergedMatch :=
  let match_day := get_match_day_date today
  let all_matches :=
    fixtures.map (fun f => MergedMatch.mk f "fixtures") ++
      results.map (fun r => MergedMatch.mk r "results")
  all_matches.filter (todays_keep match_day query)

/-!
## Standings (`tool_ladder`)
-/

/-- One accumulated standings line. -/
structure LadderRow where
  P : Int
  W : Int
  D : Int
  L : Int
  GF : Int
  GA : Int
  PTS : Int
  deriving DecidableEq, Repr

/-- The `defaultdict` zero row. -/
def emptyRow : LadderRow := ⟨0, 0, 0, 0, 0, 0, 0⟩

/-- `defaultdict` access-and-mutate: update the row of `k` in place,
creating the entry (at the end, in insertion order) when absent. -/
def updTable (k : String) (f : LadderRow → LadderRow) :
    List (String × LadderRow) → List (String × LadderRow)
  | [] => [(k, f emptyRow)]
  | (k', r) :: rest =>
    if k' == k then (k', f r) :: rest else (k', r) :: updTable k f rest

/-- Accumulation for one parsed match: played, goals for/against, then
the 3/1/0 outcome updates, in source order. -/
def ladderApply (home away : String) (hs as_ : Int)
    (t : List (String × LadderRow)) : List (String × LadderRow) :=
  let t := updTable home (fun r => { r with P := r.P + 1 }) t
  let t := updTable away (fun r => { r with P := r.P + 1 }) t
  let t := updTable home (fun r => { r with GF := r.GF + hs }) t
  let t := updTable home (fun r => { r with GA := r.GA + as_ }) t
  let t := updTable away (fun r => { r with GF := r.GF + as_ }) t
  let t := updTable away (fun r => { r with GA := r.GA + hs }) t
  if as_ < hs then
    let t := updTable home (fun r => { r with W := r.W + 1 }) t
    let t := updTable away (fun r => { r with L := r.L + 1 }) t
    updTable home (fun r => { r with PTS := r.PTS + 3 }) t
  else if hs < as_ then
    let t := updTable away (fun r => { r with W := r.W + 1 }) t
    let t := updTable home (fun r => { r with L := r.L + 1 }) t
    updTable away (fun r => { r with PTS := r.PTS + 3 }) t
  else
    let t := updTable home (fun r => { r with D := r.D + 1 }) t
    let t := updTable away (fun r => { r with D := r.D + 1 }) t
    let t := updTable home (fun r => { r with PTS := r.PTS + 1 }) t
    updTable away (fun r => { r with PTS := r.PTS + 1 }) t

/-- One result record's contribution to the ladder: competition-code and
age-group membership checks on the league/competition labels, then score
parsing (a null score aborts the record), then accumulation. -/
def ladderStep (comp : String) (age_lower : Option String)
    (t : List (String × LadderRow)) (a : Attrs) : List (String × LadderRow) :=
  let league_name := pyLower (getStrD a.league_name "")
  let comp_name := pyLower (getStrD a.competition_name "")
  if !(strHasSub league_name comp || strHasSub comp_name comp) then t
  else
    let ageOk :=
      match age_lower with
      | some ag => strHasSub league_name ag || strHasSub comp_name ag
      | none => true
    if !ageOk then t
    else
      match a.home_score, a.away_score with
      | some hs, some as_ =>
        let home := getStrD a.home_team_name ""
        let away := getStrD a.away_team_name ""
        ladderApply home away hs as_ t
      | _, _ => t

/-- Ladder sort key, as in the source: `(PTS, GF - GA, GF)`. -/
def ladderKey (r : LadderRow) : Int × Int × Int := (r.PTS, r.GF - r.GA, r.GF)

/-- Descending lexicographic comparison of ladder keys (Python
`sorted(…, reverse=True)` on the key triple; stable). -/
def ladderGe (a b : String × LadderRow) : Bool :=
  let x := ladderKey a.2
  let y := ladderKey b.2
  decide (y.1 < x.1) ||
    (x.1 == y.1 && (decide (y.2.1 < x.2.1) ||
      (x.2.1 == y.2.1 && decide (y.2.2 ≤ x.2.2))))

/-- `tool_ladder`, from the point where the competition code and the
optional age group have been resolved from the query: accumulate the
table over the results in list order, then sort it descending by
`(PTS, GD, GF)` with a stable sort. -/
def tool_ladder_table (competition_to_use : String) (age_group : Option String)
    (results : List Attrs) : List (String × LadderRow) :=
  let comp := pyLower competition_to_use
  let age_lower := age_group.map pyLower
  let table := results.foldl (ladderStep comp age_lower) []
  pySort ladderGe table

/-!
## The query router (`FastQueryRouter.process`)

The embedding captures the dispatch decision: which handler a query is
routed to. Handler arguments (the stripped filter text each rule derives
before calling its tool) are elided, except the flags that are plain
containment checks on the query.
-/

/-- The handler a query is dispatched to. -/
inductive Route where
  | dualRegistration
  | missingScores
  | todaysResults
  | topScorersToday
  | teamsLostToday
  | missingScoresToday
  | competitionOverview
  | fixturesPersonal
  | fixturesTeam
  | yellowCards (nonPlayers : Bool)
  | redCards (nonPlayers : Bool)
  | nonPlayers
  | topScorers
  | statsFor
  | ladder
  | lineups
  | matchCentre
  | form
  | fallback
  deriving DecidableEq, Repr

/-- Keywords marking a coach/staff query. -/
def non_player_keywords : List String :=
  ["non player", "non-player", "coach", "coaches", "staff", "manager"]

/-- Keywords marking a personal ("my team") query. -/
def personal_keywords : List String :=
  ["my next", "when do i play", "where do i play", "my schedule",
   "when is my", "where is my", "our next"]

/-- Trigger phrases of the dual-registration rule. -/
def dual_keywords : List String :=
  ["dual registration", "dual reg", "playing for 2", "playing for two",
   "2 clubs", "2 teams", "two clubs", "two teams", "multi-team",
   "multiple teams", "multiple clubs", "playing in 2", "registered in 2",
   "two leagues", "2 leagues", "both teams", "in 2 age groups"]

/-- Trigger phrases of the missing-scores rule. -/
def missing_keywords : List String :=
  ["missing score", "missing scores", "no score", "scores not entered",
   "overdue", "matches without scores", "todays missing", "missing scores today"]

/-- Trigger phrases of the reporting-day results rule. -/
def todays_results_keywords : List String :=
  ["today results", "todays results", "results today", "todays results",
   "results for today", "today s results"]

/-- Trigger phrases of the reporting-day scorers rule. -/
def top_scorers_today_keywords : List String :=
  ["top scorers today", "goals today", "who scored today", "scorers today",
   "today\x27s scorers", "today\x27s goals"]

/-- Trigger phrases of the reporting-day losing-teams rule. -/
def teams_lost_keywords : List String :=
  ["teams that lost today", "who lost today", "losses today",
   "teams lost today", "today\x27s losses"]

/-- Trigger phrases of the missing-scores-today rule. -/
def missing_today_keywords : List String :=
  ["missing scores today", "missing today", "scores not entered today",
   "todays missing scores"]

/-- Trigger phrases of the competition-overview rule. -/
def comp_overview_keywords : List String :=
  ["competition overview", "competition standings", "ypl1 overview",
   "ypl2 overview", "ysl overview", "vpl overview", "club rankings",
   "overall standings"]

/-- Competition codes that can trigger the competition-overview rule. -/
def comp_code_keywords : List String :=
  ["ypl1", "ypl2", "ysl nw", "ysl se", "vpl"]

/-- Secondary words the competition-overview rule also requires. -/
def overview_words : List String :=
  ["overview", "standings", "ranking", "competition"]

/-- Trigger phrases of the fixtures rule. -/
def fixture_keywords : List String :=
  ["next match", "next game", "upcoming", "when do i play", "where do i play",
   "my next", "schedule", "fixture", "fixtures", "when is my", "where is my",
   "our next"]

/-- Trigger phrases of the top-scorers rule. -/
def top_scorer_keywords : List String :=
  ["top scorer", "leading scorer", "top scorers", "golden boot"]

/-- Trigger phrases of the stats/details rule. -/
def stats_for_keywords : List String :=
  ["stats for", "team stats", "show me", "details for"]

/-- Trigger phrases of the ladder rule. -/
def ladder_keywords : List String :=
  ["ladder", "table", "standings"]

namespace FastQueryRouter

/-- `FastQueryRouter.process`: lower-case and strip the query, then walk
the rule chain top to bottom, dispatching on the first match. The
competition-overview rule only dispatches when its secondary word check
also passes; otherwise evaluation falls through to the next rule, as in
the source. -/
def process (query : String) : Route :=
  let q := pyStrip (pyLower query)
  let is_non_player_query := non_player_keywords.any (strHasSub q)
  let is_personal_query := personal_keywords.any (strHasSub q)
  if dual_keywords.any (strHasSub q) then .dualRegistration
  else if missing_keywords.any (strHasSub q) then .missingScores
  else if todays_results_keywords.any (strHasSub q) then .todaysResults
  else if top_scorers_today_keywords.any (strHasSub q) then .topScorersToday
  else if teams_lost_keywords.any (strHasSub q) then .teamsLostToday
  else if missing_today_keywords.any (strHasSub q) then .missingScoresToday
  else if (comp_overview_keywords.any (strHasSub q) || comp_code_keywords.any (strHasSub q)) &&
      overview_words.any (strHasSub q) then .competitionOverview
  else if fixture_keywords.any (strHasSub q) then
    if is_personal_query then .fixturesPersonal else .fixturesTeam
  else if strHasSub q "yellow card" || strHasSub q "yellows" then
    .yellowCards is_non_player_query
  else if strHasSub q "red card" || strHasSub q "reds" then
    .redCards is_non_player_query
  else if is_non_player_query then .nonPlayers
  else if top_scorer_keywords.any (strHasSub q) then .topScorers
  else if stats_for_keywords.any (strHasSub q) then .statsFor
  else if ladder_keywords.any (strHasSub q) then .ladder
  else if strHasSub q "lineup" || strHasSub q "starting" then .lineups
  else if strHasSub q " vs " || strHasSub q " v " then .matchCentre
  else if strHasSub q "form" then .form
  else .fallback

end FastQueryRouter

/-!
## The canonical rule table (spec side)

`routerTable` is written from the specification's canonical priority
list; `firstMatch` is the first-match dispatch over an ordered table.
The refinement theorem states that `FastQueryRouter.process` equals
first-match dispatch over exactly this table.
-/

/-- First-match dispatch over an ordered rule table applied to the
lower-cased, stripped query. -/
def firstMatch : List ((String → Bool) × (String → Route)) → String → Route
  | [], _ => .fallback
  | (p, h) :: rest, q => if p q then h q else firstMatch rest q

/-- The canonical ordered rule table of the router, one entry per rule,
in the priority order the specification states. -/
def routerTable : List ((String → Bool) × (String → Route)) :=
  [(fun q => dual_keywords.any (strHasSub q), fun _ => .dualRegistration),
   (fun q => missing_keywords.any (strHasSub q), fun _ => .missingScores),
   (fun q => todays_results_keywords.any (strHasSub q), fun _ => .todaysResults),
   (fun q => top_scorers_today_keywords.any (strHasSub q), fun _ => .topScorersToday),
   (fun q => teams_lost_keywords.any (strHasSub q), fun _ => .teamsLostToday),
   (fun q => missing_today_keywords.any (strHasSub q), fun _ => .missingScoresToday),
   (fun q => (comp_overview_keywords.any (strHasSub q) || comp_code_keywords.any (strHasSub q)) &&
      overview_words.any (strHasSub q), fun _ => .competitionOverview),
   (fun q => fixture_keywords.any (strHasSub q),
    fun q => if personal_keywords.any (strHasSub q) then .fixturesPersonal else .fixturesTeam),
   (fun q => strHasSub q "yellow card" || strHasSub q "yellows",
    fun q => .yellowCards (non_player_keywords.any (strHasSub q))),
   (fun q => strHasSub q "red card" || strHasSub q "reds",
    fun q => .redCards (non_player_keywords.any (strHasSub q))),
   (fun q => non_player_keywords.any (strHasSub q), fun _ => .nonPlayers),
   (fun q => top_scorer_keywords.any (strHasSub q), fun _ => .topScorers),
   (fun q => stats_for_keywords.any (strHasSub q), fun _ => .statsFor),
   (fun q => ladder_keywords.any (strHasSub q), fun _ => .ladder),
   (fun q => strHasSub q "lineup" || strHasSub q "starting", fun _ => .lineups),
   (fun q => strHasSub q " vs " || strHasSub q " v ", fun _ => .matchCentre),
   (fun q => strHasSub q "form", fun _ => .form)]

/-!
## Specification-side definitions

These definitions follow the specification's words (not the source); the
theorems compare the source embeddings against them.
-/

/-- Lexicographic `≤` on character lists (case-sensitive). -/
def charListLe : List Char → List Char → Bool
  | [], _ => true
  | _ :: _, [] => false
  | a :: as, b :: bs =>
    decide (a < b) || (a == b && charListLe as bs)

/-- Case-insensitive `≤` on names. -/
def nameLeCI (a b : String) : Bool :=
  charListLe (pyLower a).data (pyLower b).data

/-- The specification's exact 5-key standings comparison: points
descending, then goal difference descending, then goals-for descending,
then goals-against ascending, then team name ascending
case-insensitively. -/
def claim_ladder_le (a b : String × LadderRow) : Bool :=
  decide (b.2.PTS < a.2.PTS) ||
    (a.2.PTS == b.2.PTS &&
      (decide (b.2.GF - b.2.GA < a.2.GF - a.2.GA) ||
        (a.2.GF - a.2.GA == b.2.GF - b.2.GA &&
          (decide (b.2.GF < a.2.GF) ||
            (a.2.GF == b.2.GF &&
              (decide (a.2.GA < b.2.GA) ||
                (a.2.GA == b.2.GA && nameLeCI a.1 b.1)))))))

/-- The specification's filter-criterion choice: exact team name, else
club + age composite, else club, else age group, else no criterion,
each as a case-insensitive containment check on a registered team. -/
def chosen_criterion (team_name base_club age_group : Option String) :
    Option (String → Bool) :=
  match team_name, base_club, age_group with
  | some tn, _, _ => some (fun t => strHasSub (pyLower t) (pyLower tn))
  | none, some bc, some ag =>
      some (fun t => strHasSub (pyLower t) (pyLower (bc ++ " " ++ ag)))
  | none, some bc, none => some (fun t => strHasSub (pyLower t) (pyLower bc))
  | none, none, some ag => some (fun t => strHasSub (pyLower t) (pyLower ag))
  | none, none, none => none

/-- The league codes the extractor can produce (specification side). -/
def extractor_range : List String :=
  ["YPL1", "YPL2", "YSL NW", "YSL SE", "VPL Men", "VPL Women", "YSL", "Other"]

/-!
## Concrete sample records

Small concrete snapshots used by the counterexample and witness
theorems. 2026-02-22 is a Sunday and 2026-10-07 a Wednesday of the
Melbourne calendar; the sample stamp is midnight UTC of the Sunday,
which is 11:00 the same local day (AEDT).
-/

/-- Day number of Sunday 2026-02-22. -/
def sundayDay : Int := daysFromCivil 2026 2 22

/-- Day number of Wednesday 2026-10-07. -/
def wednesdayDay : Int := daysFromCivil 2026 10 7

/-- Midnight UTC on Sunday 2026-02-22. -/
def sundayStamp : Stamp := Stamp.utcStamp (1440 * daysFromCivil 2026 2 22)

/-- A completed 1–1 draw between `Zebra FC` (home) and `apple fc` (away)
in a YPL1 league, both team identities present. -/
def tieMatchAttrs : Attrs :=
  { match_hash_id := some "m1"
    date := sundayStamp
    home_team_name := some "Zebra FC"
    away_team_name := some "apple fc"
    league_name := some "u16 boys ypl1"
    competition_name := none
    status := some "complete"
    home_score := some 1
    away_score := some 1
    round := some "Round 3"
    full_round := none
    ground_name := some "Main Oval"
    home_team_hash_id := some "h1"
    away_team_hash_id := some "h2" }

/-- A completed 3–0 result whose away side has no team identity (a bye
slot), with a parsable score line. -/
def byeMatchAttrs : Attrs :=
  { tieMatchAttrs with
    away_team_name := some "GhostBye"
    away_team_hash_id := none
    home_score := some 3
    away_score := some 0 }

/-- A scheduled YPL1 fixture on the sample Sunday with no scores. -/
def missingFixtureAttrs : Attrs :=
  { tieMatchAttrs with
    status := some "scheduled"
    home_score := none
    away_score := none }

/-- The same fixture dated a week later (strictly after the sample
Sunday). -/
def futureFixtureAttrs : Attrs :=
  { missingFixtureAttrs with
    date := Stamp.utcStamp (1440 * daysFromCivil 2026 3 1) }

/-- The accumulated line of each side of the sample 1–1 draw. -/
def tieRow : LadderRow := ⟨1, 0, 1, 0, 1, 1, 1⟩

/-- The accumulated line of the home side of the sample 3–0 bye result. -/
def byeWinRow : LadderRow := ⟨1, 1, 0, 0, 3, 0, 3⟩

/-- The accumulated line of the identity-less away side of the sample
3–0 bye result. -/
def byeLossRow : LadderRow := ⟨1, 0, 0, 1, 0, 3, 0⟩

/-- The Melbourne-localized instant of `sundayStamp` (11:00 AEDT on the
sample Sunday). -/
def sundayMelTime : MelTime := ⟨1440 * daysFromCivil 2026 2 22, 660⟩

/-- The sample fixture as the merged entity the missing-scores loop
examines. -/
def missingFixtureMerged : MergedMatch := ⟨missingFixtureAttrs, "fixture_only"⟩

/-!
## Theorems

Shared helper lemmas first, then one theorem per claim (with its
counterexample / witness theorems where applicable).
-/

/-- Floor division recovers the day number from day-scaled minutes plus a
sub-day offset. -/
lemma fdiv_1440_mul_add (d off : Int) (h1 : 0 ≤ off) (h2 : off < 1440) :
    Int.fdiv (1440 * d + off) 1440 = d := by
  rw [Int.fdiv_eq_ediv _ (by norm_num)]
  omega

/-- The matching remainder fact. -/
lemma emod_1440_mul_add (d off : Int) (h1 : 0 ≤ off) (h2 : off < 1440) :
    (1440 * d + off) % 1440 = off := by
  have h : 1440 * d + off = off + 1440 * d := by ring
  rw [h, Int.add_mul_emod_self_left, Int.emod_eq_of_lt h1 h2]

/-- The Melbourne offset is always 10 or 11 hours. -/
lemma melOffsetMin_cases (u : Int) : melOffsetMin u = 600 ∨ melOffsetMin u = 660 := by
  unfold melOffsetMin
  split
  · exact Or.inr rfl
  · exact Or.inl rfl

/-- Claim C5 (amended: from a Wednesday the most recent Sunday is 3 days
earlier, not 4): `get_match_day_date` returns today itself on a Sunday,
and otherwise the most recent past Sunday — a strictly earlier day, at
most 6 days back, whose weekday is Sunday; in particular a Wednesday
maps 3 days back. -/
theorem reporting_day_most_recent_sunday :
    ∀ today : Int,
      (pyWeekday today = 6 → get_match_day_date today = today) ∧
      (pyWeekday today ≠ 6 →
        pyWeekday (get_match_day_date today) = 6 ∧
        get_match_day_date today < today ∧
        today - get_match_day_date today ≤ 6) ∧
      (pyWeekday today = 2 → get_match_day_date today = today - 3) := by
  intro today
  have hnn : 0 ≤ (today + 3) % 7 := Int.emod_nonneg _ (by norm_num)
  have hlt : (today + 3) % 7 < 7 := Int.emod_lt_of_pos _ (by norm_num)
  refine ⟨?_, ?_, ?_⟩
  · intro h
    simp [get_match_day_date, h]
  · intro h
    have hb : (pyWeekday today + 1) % 7 = pyWeekday today + 1 := by
      apply Int.emod_eq_of_lt
      · unfold pyWeekday; omega
      · unfold pyWeekday at h ⊢
        omega
    have hm : get_match_day_date today = today - (pyWeekday today + 1) := by
      simp [get_match_day_date, h, hb]
    refine ⟨?_, ?_, ?_⟩
    · rw [hm]
      unfold pyWeekday at h ⊢
      have hd := Int.ediv_add_emod (today + 3) 7
      set k := (today + 3) / 7 with hk
      have e : today - ((today + 3) % 7 + 1) + 3 = 6 + 7 * (k - 1) := by omega
      rw [e, Int.add_mul_emod_self_left]
      decide
    · rw [hm]
      unfold pyWeekday at h ⊢
      omega
    · rw [hm]
      unfold pyWeekday at h ⊢
      omega
  · intro h
    have hm : get_match_day_date today = today - (2 + 1) % 7 := by
      simp [get_match_day_date, h]
    rw [hm]
    norm_num

/-- Claim C5 witness: the general theorem applied to the concrete
Wednesday 2026-10-07 and Sunday 2026-02-22. -/
theorem reporting_day_most_recent_sunday_witness :
    pyWeekday wednesdayDay = 2 ∧ get_match_day_date wednesdayDay = wednesdayDay - 3 ∧
    pyWeekday sundayDay = 6 ∧ get_match_day_date sundayDay = sundayDay :=
  ⟨by decide, (reporting_day_most_recent_sunday wednesdayDay).2.2 (by decide), by decide,
   (reporting_day_most_recent_sunday sundayDay).1 (by decide)⟩

/-- Claim C5 counterexample: on Wednesday 2026-10-07 the reporting day is
3 days earlier (Sunday 2026-10-04), not 4 days earlier as the claim
parenthesises. -/
theorem reporting_day_wednesday_not_four_days :
    pyWeekday wednesdayDay = 2 ∧
    pyWeekday (wednesdayDay - 3) = 6 ∧
    get_match_day_date wednesdayDay = wednesdayDay - 3 ∧
    get_match_day_date wednesdayDay ≠ wednesdayDay - 4 :=
  ⟨by decide, by decide, by decide, by decide⟩

/-- Claim C6 (amended: a date-only stamp is read as midnight **UTC**, so
its Melbourne rendering is 10:00 or 11:00 local time on that same date,
never local midnight): `parse_date_utc_to_aest` maps a date-only stamp
to the UTC midnight of that date; the localized result falls on the
same local calendar date with a local time of day of 600 or 660 minutes
— in particular not 0. -/
theorem toLocalTime_date_only_utc_midnight :
    ∀ y m d : Int, ∃ mt : MelTime,
      parse_date_utc_to_aest (Stamp.dateOnly y m d) = some mt ∧
      mt.utc = 1440 * daysFromCivil y m d ∧
      (mt.off = 600 ∨ mt.off = 660) ∧
      mt.localDate = daysFromCivil y m d ∧
      (mt.localTimeOfDay = 600 ∨ mt.localTimeOfDay = 660) ∧
      mt.localTimeOfDay ≠ 0 := by
  intro y m d
  set D := daysFromCivil y m d with hD
  set off := melOffsetMin (1440 * D) with hoff
  have hcases : off = 600 ∨ off = 660 := melOffsetMin_cases _
  have h0 : 0 ≤ off := by rcases hcases with h | h <;> omega
  have h1 : off < 1440 := by rcases hcases with h | h <;> omega
  refine ⟨⟨1440 * D, off⟩, rfl, rfl, hcases, ?_, ?_, ?_⟩
  · show Int.fdiv (1440 * D + off) 1440 = D
    exact fdiv_1440_mul_add D off h0 h1
  · show (1440 * D + off) % 1440 = 600 ∨ (1440 * D + off) % 1440 = 660
    rw [emod_1440_mul_add D off h0 h1]
    exact hcases
  · show (1440 * D + off) % 1440 ≠ 0
    rw [emod_1440_mul_add D off h0 h1]
    omega

/-- Claim C6 counterexample: the date-only stamp 2026-02-22 localizes to
11:00 AEDT on 2026-02-22 — the same local date, but not local
midnight. -/
theorem toLocalTime_sample_date_only_is_11am :
    (parse_date_utc_to_aest (Stamp.dateOnly 2026 2 22)).map MelTime.localTimeOfDay = some 660 ∧
    (parse_date_utc_to_aest (Stamp.dateOnly 2026 2 22)).map MelTime.localTimeOfDay ≠ some 0 ∧
    (parse_date_utc_to_aest (Stamp.dateOnly 2026 2 22)).map MelTime.localDate =
      some (daysFromCivil 2026 2 22) :=
  ⟨by decide, by decide, by decide⟩

/-- Claim C8: the router is first-match dispatch over the canonical
ordered rule table, and a query containing both "coach" and
"yellow card" is handled by the yellow-card rule (with the staff
source), not the standalone staff listing. -/
theorem router_dispatch_first_match :
    (∀ query, FastQueryRouter.process query = firstMatch routerTable (pyStrip (pyLower query))) ∧
    FastQueryRouter.process "coach yellow cards" = Route.yellowCards true ∧
    FastQueryRouter.process "coach yellow cards" ≠ Route.nonPlayers :=
  ⟨fun _ => rfl, by decide, by decide⟩

/-- Inserting with `pyInsert` permutes consing. -/
lemma pyInsert_perm {α : Type} (le : α → α → Bool) (x : α) (l : List α) :
    (pyInsert le x l).Perm (x :: l) := by
  induction l with
  | nil => exact List.Perm.refl _
  | cons y ys ih =>
    unfold pyInsert
    by_cases hyx : le y x = true
    · simp only [hyx, if_true]
      exact (ih.cons y).trans (List.Perm.swap x y ys)
    · simp only [hyx, if_false]
      exact List.Perm.refl _

/-- `pySort` permutes its input. -/
lemma pySort_perm {α : Type} (le : α → α → Bool) (l : List α) :
    (pySort le l).Perm l := by
  suffices h : ∀ (l acc : List α),
      (l.foldl (fun acc x => pyInsert le x acc) acc).Perm (acc ++ l) by
    simpa using h l []
  intro l
  induction l with
  | nil => intro acc; simp
  | cons x xs ih =>
    intro acc
    simp only [List.foldl_cons]
    refine (ih (pyInsert le x acc)).trans ?_
    refine (((pyInsert_perm le x acc).append_right xs).trans ?_)
    exact List.perm_middle.symm

/-- `pyInsert` preserves sortedness for a transitive, total comparison. -/
lemma pyInsert_pairwise {α : Type} (le : α → α → Bool)
    (htrans : ∀ a b c, le a b = true → le b c = true → le a c = true)
    (htot : ∀ a b, (le a b || le b a) = true)
    (x : α) (l : List α) (h : l.Pairwise (fun a b => le a b = true)) :
    (pyInsert le x l).Pairwise (fun a b => le a b = true) := by
  induction l with
  | nil => simp [pyInsert]
  | cons y ys ih =>
    rcases List.pairwise_cons.mp h with ⟨hy, hys⟩
    unfold pyInsert
    by_cases hyx : le y x = true
    · simp only [hyx, if_true]
      refine List.pairwise_cons.mpr ⟨?_, ih hys⟩
      intro z hz
      rcases List.mem_cons.mp ((pyInsert_perm le x ys).mem_iff.mp hz) with rfl | hz'
      · exact hyx
      · exact hy z hz'
    · have hxy : le x y = true := by
        by_contra hne
        have h1 : le x y = false := Bool.eq_false_iff.mpr hne
        have h2 : le y x = false := Bool.eq_false_iff.mpr hyx
        have h' := htot x y
        rw [h1, h2] at h'
        simp at h'
      simp only [hyx, if_false]
      refine List.pairwise_cons.mpr ⟨?_, h⟩
      intro z hz
      rcases List.mem_cons.mp hz with rfl | hz'
      · exact hxy
      · exact htrans x y z hxy (hy z hz')

/-- `pySort` sorts by a transitive, total comparison. -/
lemma pySort_pairwise {α : Type} (le : α → α → Bool)
    (htrans : ∀ a b c, le a b = true → le b c = true → le a c = true)
    (htot : ∀ a b, (le a b || le b a) = true)
    (l : List α) : (pySort le l).Pairwise (fun a b => le a b = true) := by
  suffices h : ∀ (l acc : List α), acc.Pairwise (fun a b => le a b = true) →
      (l.foldl (fun acc x => pyInsert le x acc) acc).Pairwise (fun a b => le a b = true) by
    exact h l [] (by simp)
  intro l
  induction l with
  | nil => intro acc hacc; simpa using hacc
  | cons x xs ih =>
    intro acc hacc
    simp only [List.foldl_cons]
    exact ih _ (pyInsert_pairwise le htrans htot x acc hacc)

/-- The three-key descending ladder comparison is transitive. -/
lemma ladderGe_trans (a b c : String × LadderRow) (hab : ladderGe a b = true)
    (hbc : ladderGe b c = true) : ladderGe a c = true := by
  simp only [ladderGe, ladderKey, Bool.or_eq_true, Bool.and_eq_true, decide_eq_true_eq,
    beq_iff_eq] at hab hbc ⊢
  omega

/-- The three-key descending ladder comparison is total. -/
lemma ladderGe_total (a b : String × LadderRow) :
    (ladderGe a b || ladderGe b a) = true := by
  simp only [ladderGe, ladderKey, Bool.or_eq_true, Bool.and_eq_true, decide_eq_true_eq,
    beq_iff_eq]
  omega

/-- Claim C1 (amended: the ladder is sorted by the three-key chain points
desc, goal difference desc, goals-for desc only; the goals-against key
can never discriminate once those three are equal, and there is no name
key — rows tied on all three keys stay in first-appearance order of the
accumulation): the output is a permutation of the accumulated table,
sorted by the three-key comparison; two rows with equal key triples
necessarily have equal goals-against; and on the concrete full tie the
first-accumulated team (`Zebra FC`) stays above `apple fc`. -/
theorem ladder_sorted_three_key_chain :
    (∀ comp age results,
      (tool_ladder_table comp age results).Pairwise (fun a b => ladderGe a b = true)) ∧
    (∀ comp age results,
      (tool_ladder_table comp age results).Perm
        (results.foldl (ladderStep (pyLower comp) (age.map pyLower)) [])) ∧
    (∀ r s : LadderRow, ladderKey r = ladderKey s → r.GA = s.GA) ∧
    tool_ladder_table "YPL1" none [tieMatchAttrs] = [("Zebra FC", tieRow), ("apple fc", tieRow)] := by
  refine ⟨?_, ?_, ?_, by decide⟩
  · intro comp age results
    exact pySort_pairwise ladderGe ladderGe_trans ladderGe_total _
  · intro comp age results
    exact pySort_perm ladderGe _
  · intro r s h
    simp only [ladderKey, Prod.mk.injEq] at h
    omega

/-- Claim C1 witness: the general parts applied at the concrete sample
competition, and the goals-against conjunct at a reflexive instance. -/
theorem ladder_sorted_three_key_chain_witness :
    (tool_ladder_table "YPL1" none [tieMatchAttrs]).Pairwise (fun a b => ladderGe a b = true) ∧
    tieRow.GA = tieRow.GA :=
  ⟨ladder_sorted_three_key_chain.1 "YPL1" none [tieMatchAttrs],
   ladder_sorted_three_key_chain.2.2.1 tieRow tieRow rfl⟩

/-- Claim C1 counterexample: a single completed 1–1 draw produces a full
tie; the claimed 5-key chain ranks `apple fc` above `Zebra FC`
(case-insensitive name ascending), but the code leaves `Zebra FC` first
(stable sort, first appearance), so the output is not sorted by the
claimed 5-key chain. -/
theorem ladder_tie_not_sorted_by_five_keys :
    tool_ladder_table "YPL1" none [tieMatchAttrs] = [("Zebra FC", tieRow), ("apple fc", tieRow)] ∧
    claim_ladder_le ("apple fc", tieRow) ("Zebra FC", tieRow) = true ∧
    claim_ladder_le ("Zebra FC", tieRow) ("apple fc", tieRow) = false ∧
    ¬ (tool_ladder_table "YPL1" none [tieMatchAttrs]).Pairwise
        (fun a b => claim_ladder_le a b = true) := by
  refine ⟨by decide, by decide, by decide, ?_⟩
  intro h
  rw [show tool_ladder_table "YPL1" none [tieMatchAttrs] =
      [("Zebra FC", tieRow), ("apple fc", tieRow)] from by decide] at h
  have h2 := List.rel_of_pairwise_cons h (List.mem_singleton.mpr rfl)
  exact absurd h2 (by decide)

/-- Claim C3 counterexample: a completed 3–0 result whose away side has
no team identity is still accumulated by `tool_ladder`, so both its
teams (including the identity-less `GhostBye`) appear in the standings
output. -/
theorem ladder_includes_missing_identity_match :
    byeMatchAttrs.away_team_hash_id = none ∧
    tool_ladder_table "YPL1" none [byeMatchAttrs] =
      [("Zebra FC", byeWinRow), ("GhostBye", byeLossRow)] :=
  ⟨rfl, by decide⟩

/-- Anatomy of a passed missing-scores prefilter: the date parsed, both
team hash ids are truthy, and either all leagues were requested or the
match's league code is in the target set. -/
lemma missing_prefilter_spec (today : Int) (query : String) (ia : Bool)
    (rf : Option Nat) (md : Option Int) (m : MergedMatch)
    (h : missing_prefilter today query ia rf md m = true) :
    ∃ mt, parse_date_utc_to_aest m.attrs.date = some mt ∧
      optStrTruthy m.attrs.home_team_hash_id = true ∧
      optStrTruthy m.attrs.away_team_hash_id = true ∧
      (ia = true ∨ target_leagues.contains
        (extract_league_from_league_name (getStrD m.attrs.league_name "")) = true) := by
  unfold missing_prefilter at h
  rcases hp : parse_date_utc_to_aest m.attrs.date with _ | mt
  · rw [hp] at h
    simp at h
  · rw [hp] at h
    simp only [Bool.and_eq_true, Bool.or_eq_true] at h
    exact ⟨mt, rfl, h.1.1.1.2.1, h.1.1.1.2.2, h.1.1.2⟩

/-- A passed `missing_keep` splits into the prefilter and the
`needs_score` flag at the parsed local date. -/
lemma missing_keep_parts (today : Int) (query : String) (ia : Bool)
    (rf : Option Nat) (md : Option Int) (m : MergedMatch)
    (h : missing_keep today query ia rf md m = true) :
    missing_prefilter today query ia rf md m = true ∧
      ∀ mt, parse_date_utc_to_aest m.attrs.date = some mt →
        needs_score today mt.localDate m.attrs = true := by
  unfold missing_keep at h
  rw [Bool.and_eq_true] at h
  refine ⟨h.1, ?_⟩
  intro mt hp
  have h2 := h.2
  rw [hp] at h2
  exact h2

/-- A flagged match's local date is on or before today. -/
lemma needs_score_le (today md : Int) (a : Attrs)
    (h : needs_score today md a = true) : md ≤ today := by
  unfold needs_score at h
  simp only [Bool.and_eq_true, decide_eq_true_eq] at h
  exact h.1

/-- Membership in the missing-scores output yields a passed
`missing_keep`. -/
lemma mem_missing_scores (today : Int) (fixtures results : List Attrs)
    (query : String) (ia t_o l_w : Bool) (rf : Option Nat) (m : MergedMatch)
    (hm : m ∈ tool_missing_scores_matches today fixtures results query ia t_o l_w rf) :
    ∃ md, missing_keep today query ia rf md m = true := by
  simp only [tool_missing_scores_matches] at hm
  exact ⟨_, (List.mem_filter.mp hm).2⟩

/-- Anatomy of a passed `todays_keep`: date parsed onto the reporting
day, both team hash ids truthy, and the completed-with-scores check. -/
lemma todays_keep_spec (match_day : Int) (query : String) (m : MergedMatch)
    (h : todays_keep match_day query m = true) :
    ∃ mt, parse_date_utc_to_aest m.attrs.date = some mt ∧
      mt.localDate = match_day ∧
      optStrTruthy m.attrs.home_team_hash_id = true ∧
      optStrTruthy m.attrs.away_team_hash_id = true ∧
      pyLower (getStrD m.attrs.status "") = "complete" ∧
      m.attrs.home_score.isSome = true ∧
      m.attrs.away_score.isSome = true := by
  unfold todays_keep at h
  rcases hp : parse_date_utc_to_aest m.attrs.date with _ | mt
  · rw [hp] at h
    simp at h
  · rw [hp] at h
    simp only [Bool.and_eq_true, beq_iff_eq] at h
    exact ⟨mt, rfl, h.1.1.1, h.1.1.2.1, h.1.1.2.2, h.2.1.1, h.2.1.2, h.2.2⟩

/-- Claim C3 (amended: the bye exclusion holds in missing-score output
and in the reporting-day results listing via the team-hash check, but
`tool_ladder` performs no team-identity check and accumulates a match
lacking a team id whenever its scores parse — see the counterexample):
every match in missing-score or reporting-day output carries both team
hash ids. -/
theorem bye_excluded_missing_and_todays :
    (∀ today fixtures results query ia t_o l_w rf m,
      m ∈ tool_missing_scores_matches today fixtures results query ia t_o l_w rf →
      optStrTruthy m.attrs.home_team_hash_id = true ∧
      optStrTruthy m.attrs.away_team_hash_id = true) ∧
    (∀ today fixtures results query m,
      m ∈ tool_todays_results_matches today fixtures results query →
      optStrTruthy m.attrs.home_team_hash_id = true ∧
      optStrTruthy m.attrs.away_team_hash_id = true) := by
  constructor
  · intro today fixtures results query ia t_o l_w rf m hm
    obtain ⟨md, hk⟩ := mem_missing_scores today fixtures results query ia t_o l_w rf m hm
    obtain ⟨hpre, _⟩ := missing_keep_parts today query ia rf md m hk
    obtain ⟨mt, _, hh, ha, _⟩ := missing_prefilter_spec today query ia rf md m hpre
    exact ⟨hh, ha⟩
  · intro today fixtures results query m hm
    simp only [tool_todays_results_matches] at hm
    have hk := (List.mem_filter.mp hm).2
    obtain ⟨mt, _, _, hh, ha, _⟩ := todays_keep_spec (get_match_day_date today) query m hk
    exact ⟨hh, ha⟩

/-- Claim C3 witness: the general theorem applied to concrete nonempty
missing-score and reporting-day outputs. -/
theorem bye_excluded_missing_and_todays_witness :
    missingFixtureMerged ∈
      tool_missing_scores_matches sundayDay [missingFixtureAttrs] [] "" false false false none ∧
    optStrTruthy missingFixtureMerged.attrs.home_team_hash_id = true ∧
    (⟨tieMatchAttrs, "results"⟩ : MergedMatch) ∈
      tool_todays_results_matches sundayDay [] [tieMatchAttrs] "" ∧
    optStrTruthy (⟨tieMatchAttrs, "results"⟩ : MergedMatch).attrs.away_team_hash_id = true :=
  ⟨by decide,
   (bye_excluded_missing_and_todays.1 sundayDay [missingFixtureAttrs] [] "" false false false
     none missingFixtureMerged (by decide)).1,
   by decide,
   (bye_excluded_missing_and_todays.2 sundayDay [] [tieMatchAttrs] ""
     ⟨tieMatchAttrs, "results"⟩ (by decide)).2⟩

/-- Claim C4: the missing-score flag is exactly "local date on or before
today, and (status not complete, or a score absent)"; consequently every
match in any missing-score output has local date on or before today —
a fixture dated strictly after today never appears, regardless of its
status. -/
theorem missing_score_flag_criterion :
    (∀ today md a, needs_score today md a = true ↔
      (md ≤ today ∧ (pyLower (getStrD a.status "") ≠ "complete" ∨
        a.home_score = none ∨ a.away_score = none))) ∧
    (∀ today fixtures results query ia t_o l_w rf m mt,
      m ∈ tool_missing_scores_matches today fixtures results query ia t_o l_w rf →
      parse_date_utc_to_aest m.attrs.date = some mt →
      mt.localDate ≤ today) := by
  constructor
  · intro today md a
    unfold needs_score
    simp only [Bool.and_eq_true, Bool.or_eq_true, decide_eq_true_eq, bne_iff_ne,
      Option.isNone_iff_eq_none]
    tauto
  · intro today fixtures results query ia t_o l_w rf m mt hm hp
    obtain ⟨md, hk⟩ := mem_missing_scores today fixtures results query ia t_o l_w rf m hm
    obtain ⟨_, hns⟩ := missing_keep_parts today query ia rf md m hk
    exact needs_score_le today mt.localDate m.attrs (hns mt hp)

/-- Claim C4 witness: the criterion and the date bound at the concrete
Sunday fixture. -/
theorem missing_score_flag_criterion_witness :
    needs_score sundayDay sundayDay missingFixtureAttrs = true ∧
    missingFixtureMerged ∈
      tool_missing_scores_matches sundayDay [missingFixtureAttrs] [] "" false false false none ∧
    sundayMelTime.localDate ≤ sundayDay :=
  ⟨(missing_score_flag_criterion.1 sundayDay sundayDay missingFixtureAttrs).mpr
     (by refine ⟨le_refl _, Or.inl ?_⟩; decide),
   by decide,
   missing_score_flag_criterion.2 sundayDay [missingFixtureAttrs] [] "" false false false none
     missingFixtureMerged sundayMelTime (by decide) (by decide)⟩

/-- Claim C10: the league-code extractor only produces the eight listed
codes (never the bare code `VPL`), and with the default league
restriction every reported missing-score match has its extracted league
code in the fixed target set — so `VPL Men` and `VPL Women` matches are
always absent from default missing-score output. -/
theorem missing_scores_default_league_codes :
    (∀ name, extract_league_from_league_name name ∈ extractor_range) ∧
    (∀ today fixtures results query t_o l_w rf m,
      m ∈ tool_missing_scores_matches today fixtures results query false t_o l_w rf →
      extract_league_from_league_name (getStrD m.attrs.league_name "") ∈ target_leagues) ∧
    (∀ today fixtures results query t_o l_w rf m,
      m ∈ tool_missing_scores_matches today fixtures results query false t_o l_w rf →
      extract_league_from_league_name (getStrD m.attrs.league_name "") ≠ "VPL Men" ∧
      extract_league_from_league_name (getStrD m.attrs.league_name "") ≠ "VPL Women") := by
  have hmem : ∀ today fixtures results query t_o l_w rf m,
      m ∈ tool_missing_scores_matches today fixtures results query false t_o l_w rf →
      extract_league_from_league_name (getStrD m.attrs.league_name "") ∈ target_leagues := by
    intro today fixtures results query t_o l_w rf m hm
    obtain ⟨md, hk⟩ := mem_missing_scores today fixtures results query false t_o l_w rf m hm
    obtain ⟨hpre, _⟩ := missing_keep_parts today query false rf md m hk
    obtain ⟨mt, _, _, _, hleague⟩ := missing_prefilter_spec today query false rf md m hpre
    rcases hleague with h | h
    · cases h
    · simpa [List.contains_iff_exists_mem_beq, beq_iff_eq] using h
  refine ⟨?_, hmem, ?_⟩
  · intro name
    simp only [extract_league_from_league_name]
    split_ifs <;> decide
  · intro today fixtures results query t_o l_w rf m hm
    have h := hmem today fixtures results query t_o l_w rf m hm
    constructor
    · intro he
      rw [he] at h
      exact absurd h (by decide)
    · intro he
      rw [he] at h
      exact absurd h (by decide)

/-- Claim C10 witness: the general theorem applied at the concrete
Sunday fixture, whose league code is `YPL1`. -/
theorem missing_scores_default_league_codes_witness :
    extract_league_from_league_name "u16 boys ypl1" ∈ extractor_range ∧
    missingFixtureMerged ∈
      tool_missing_scores_matches sundayDay [missingFixtureAttrs] [] "" false false false none ∧
    extract_league_from_league_name (getStrD missingFixtureMerged.attrs.league_name "") ∈
      target_leagues ∧
    extract_league_from_league_name (getStrD missingFixtureMerged.attrs.league_name "") ≠
      "VPL Men" :=
  ⟨missing_scores_default_league_codes.1 "u16 boys ypl1",
   by decide,
   missing_scores_default_league_codes.2.1 sundayDay [missingFixtureAttrs] [] "" false false
     none missingFixtureMerged (by decide),
   (missing_scores_default_league_codes.2.2 sundayDay [missingFixtureAttrs] [] "" false false
     none missingFixtureMerged (by decide)).1⟩

/-- Claim C2 (amended: the by-`match_hash_id` merge with result
precedence holds inside missing-score detection — one merged entity per
fixture, the result's record winning when one shares the id — but the
reporting-day results listing concatenates fixtures and results without
merging, so a match whose fixture copy itself carries complete status
and scores is listed twice; see the counterexample): merge invariants of
`tool_missing_scores`. -/
theorem missing_scores_merge_result_precedence :
    (∀ fixtures results, (mergedMatches fixtures results).length = fixtures.length) ∧
    (∀ results f mid r, f.match_hash_id = some mid → pyIsEmpty mid = false →
      result_lookup results mid = some r → mergeOne results f = ⟨r, "result"⟩) ∧
    (∀ results f, f.match_hash_id = none → mergeOne results f = ⟨f, "fixture_only"⟩) := by
  refine ⟨?_, ?_, ?_⟩
  · intro fixtures results
    simp [mergedMatches]
  · intro results f mid r h1 h2 h3
    unfold mergeOne
    rw [h1]
    simp [h2, h3]
  · intro results f h
    unfold mergeOne
    rw [h]

/-- Claim C2 witness: a fixture and a result sharing `match_hash_id`
`m1`; the merged entity is the result record. -/
theorem missing_scores_merge_result_precedence_witness :
    missingFixtureAttrs.match_hash_id = some "m1" ∧
    pyIsEmpty "m1" = false ∧
    result_lookup [tieMatchAttrs] "m1" = some tieMatchAttrs ∧
    mergeOne [tieMatchAttrs] missingFixtureAttrs = ⟨tieMatchAttrs, "result"⟩ :=
  ⟨rfl, rfl, by decide,
   missing_scores_merge_result_precedence.2.1 [tieMatchAttrs] missingFixtureAttrs "m1"
     tieMatchAttrs rfl rfl (by decide)⟩

/-- Claim C2 counterexample: a match present as both a fixture and a
result (same `match_hash_id`, completed with scores) is listed twice by
the reporting-day results listing — once from each source. -/
theorem todays_results_double_counts_shared_match :
    tool_todays_results_matches sundayDay [tieMatchAttrs] [tieMatchAttrs] "" =
      [⟨tieMatchAttrs, "fixtures"⟩, ⟨tieMatchAttrs, "results"⟩] ∧
    (tool_todays_results_matches sundayDay [tieMatchAttrs] [tieMatchAttrs] "").map
      (fun m => m.attrs.match_hash_id) = [some "m1", some "m1"] :=
  ⟨by decide, by decide⟩

/-- Claim C7 (amended: the composite club + age-group build happens
before any matching, and with the known team present the resolver
returns it by exact match, untouched by the fuzzy scorer — but team
names are returned lower-cased, so resolving `heid u16` yields
`heidelberg united fc u16`, the lower-cased form of
`Heidelberg United FC U16`): when the alias step resolves a club and the
text carries an age-group token, `normalize_team` continues with the
concatenated club + age query; for any fuzzy scorer and any team set
containing `Heidelberg United FC U16`, resolving `heid u16` returns
that team's lower-cased name. -/
theorem resolver_composite_before_matching :
    (∀ (fz : String → List String → Option String) (teams : List String)
      (query c a : String),
      pyIsEmpty query = false →
      get_canonical_club_name (pyStrip (pyLower query)) = some c →
      extract_age_group (pyStrip (pyLower query)) = some a →
      normalize_team fz teams query = fuzzy_team fz teams (c ++ " " ++ a)) ∧
    (∀ (fz : String → List String → Option String) (teams : List String),
      (teams.map pyLower).contains "heidelberg united fc u16" = true →
      normalize_team fz teams "heid u16" = some "heidelberg united fc u16") := by
  have hcomp : ∀ (fz : String → List String → Option String) (teams : List String)
      (query c a : String),
      pyIsEmpty query = false →
      get_canonical_club_name (pyStrip (pyLower query)) = some c →
      extract_age_group (pyStrip (pyLower query)) = some a →
      normalize_team fz teams query = fuzzy_team fz teams (c ++ " " ++ a) := by
    intro fz teams query c a h1 h2 h3
    unfold normalize_team
    simp [h1, h2, h3]
  refine ⟨hcomp, ?_⟩
  intro fz teams h
  rw [hcomp fz teams "heid u16" "Heidelberg United FC" "U16" rfl (by decide) (by decide)]
  simp only [fuzzy_team]
  rw [show pyStrip (pyLower ("Heidelberg United FC" ++ " " ++ "U16")) =
      "heidelberg united fc u16" from by decide]
  split
  · rfl
  · rename_i hc
    exact absurd h hc

/-- Claim C7 witness: the general theorem applied at the concrete alias
table entry `heid`, the age token `u16`, and the known team. -/
theorem resolver_composite_before_matching_witness :
    pyIsEmpty "heid u16" = false ∧
    get_canonical_club_name (pyStrip (pyLower "heid u16")) = some "Heidelberg United FC" ∧
    extract_age_group (pyStrip (pyLower "heid u16")) = some "U16" ∧
    normalize_team (fun _ _ => none) ["Heidelberg United FC U16"] "heid u16" =
      some "heidelberg united fc u16" :=
  ⟨rfl, by decide, by decide,
   resolver_composite_before_matching.2 (fun _ _ => none) ["Heidelberg United FC U16"]
     (by decide)⟩

/-- Claim C7 counterexample: the resolver does build the composite and
does not fall through to the fuzzy scorer (which here returns nothing),
but the returned string is the lower-cased team name, not the
canonically-cased `Heidelberg United FC U16` the claim states. -/
theorem resolver_heid_u16_lowercased :
    normalize_team (fun _ _ => none) ["Heidelberg United FC U16"] "heid u16" =
      some "heidelberg united fc u16" ∧
    normalize_team (fun _ _ => none) ["Heidelberg United FC U16"] "heid u16" ≠
      some "Heidelberg United FC U16" :=
  ⟨by decide, by decide⟩

/-- Claim C9: filtering a person collection applies exactly one
criterion — the role filter aside — chosen by specificity precedence
(exact team, else club + age composite, else club, else age group,
else none), and a person passes the chosen criterion exactly when some
one of their registered teams satisfies it. -/
theorem filter_applies_single_criterion :
    ∀ (ageOf teamOf clubOf : String → Option String) (players : List Person)
      (query : String) (inp : Bool) (p : Person),
      p ∈ filter_players_by_criteria ageOf teamOf clubOf players query inp ↔
        (p ∈ role_filter players inp ∧
          match chosen_criterion (teamOf query) (clubOf query) (ageOf query) with
          | none => True
          | some crit => ∃ t ∈ person_teams p, crit t = true) := by
  intro ageOf teamOf clubOf players query inp p
  unfold filter_players_by_criteria chosen_criterion
  rcases teamOf query with _ | tn
  · rcases clubOf query with _ | bc
    · rcases ageOf query with _ | ag
      · simp
      · simp [List.mem_filter, team_match, List.any_eq_true]
    · rcases ageOf query with _ | ag
      · simp [List.mem_filter, team_match, List.any_eq_true]
      · simp [List.mem_filter, team_match, List.any_eq_true]
  · simp [List.mem_filter, team_match, List.any_eq_true]

end VJSoccer
